import Mathlib

/-!
Verification of the discrete wavelet transform (DWT) component of the
sktime fork, together with a model of the forecaster vectorization layer
exercised by its test suite.

The Python source `sktime/transformations/panel/dwt.py` works over numpy
arrays of floats; we embed series as `List ℝ`.  The Haar scaling constant
`math.sqrt(2)` is passed to the definitions as an explicit real parameter
`s` so that the definitions stay computable; theorems about the numeric
values instantiate `s := Real.sqrt 2`.
-/

namespace DWT

variable {α : Type} [Field α]

/-- Embedding of `DWTTransformer._get_approx_coefficients`: if the input has
length 1 return `[arr[0]]`, otherwise pair consecutive entries and emit
`(arr[2x] + arr[2x+1]) / sqrt(2)` for `x` in `range(len(arr) // 2)`. -/
def get_approx_coefficients (s : α) (arr : List α) : List α :=
  if arr.length = 1 then [arr.getD 0 0]
  else (List.range (arr.length / 2)).map
    (fun x => (arr.getD (2 * x) 0 + arr.getD (2 * x + 1) 0) / s)

/-- Embedding of `DWTTransformer._get_wavelet_coefficients`: if the input has
length 1 return `[arr[0]]`, otherwise emit `(arr[2x] - arr[2x+1]) / sqrt(2)`
for `x` in `range(len(arr) // 2)`. -/
def get_wavelet_coefficients (s : α) (arr : List α) : List α :=
  if arr.length = 1 then [arr.getD 0 0]
  else (List.range (arr.length / 2)).map
    (fun x => (arr.getD (2 * x) 0 - arr.getD (2 * x + 1) 0) / s)

/-- The loop body of `_extract_wavelet_coefficients` for one instance: each of
the `num_levels` iterations appends the reversed detail coefficients of the
current approximation to the accumulator `coeffs` and replaces `current` by
the new approximation.  Returns the final `(coeffs, current)` pair; after at
least one iteration `current` is the last computed approximation. -/
def extract_loop (s : α) : ℕ → List α → List α → List α × List α
  | 0, coeffs, current => (coeffs, current)
  | n + 1, coeffs, current =>
      extract_loop s n (coeffs ++ (get_wavelet_coefficients s current).reverse)
        (get_approx_coefficients s current)

/-- Per-instance body of `DWTTransformer._extract_wavelet_coefficients`: with
`num_levels == 0` the series is returned unchanged; otherwise the loop runs
`num_levels` times, the reversed final approximation is appended, and the
whole accumulator is reversed. -/
def extract_one (s : α) (num_levels : ℕ) (x : List α) : List α :=
  if num_levels = 0 then x
  else
    ((extract_loop s num_levels [] x).1 ++
      (extract_loop s num_levels [] x).2.reverse).reverse

/-- Embedding of `DWTTransformer._extract_wavelet_coefficients` over a 2d
array of series (one row per instance). -/
def extract_wavelet_coefficients (s : α) (num_levels : ℕ)
    (data : List (List α)) : List (List α) :=
  data.map (extract_one s num_levels)

/-- The `num_levels` constructor argument as Python sees it: either an
`int`, or a value of some other type (recorded by its type name, which only
feeds the error message). -/
inductive PyNumLevels where
  | int (n : ℤ)
  | nonInt (typeName : String)
deriving DecidableEq

/-- The spec's `ConfigurationError` taxonomy: the Python code raises
`ValueError` for an out-of-range value and `TypeError` for a wrong type. -/
inductive ConfigurationError where
  | valueError (msg : String)
  | typeError (msg : String)
deriving DecidableEq

/-- Embedding of `DWTTransformer._check_parameters`: an `int` value `<= -1`
raises `ValueError`, a non-`int` raises `TypeError`, otherwise no error.
The message strings are kept exactly as the Python concatenations build
them (including the missing space in the `ValueError` message). -/
def check_parameters : PyNumLevels → Except ConfigurationError Unit
  | .int n =>
      if n ≤ -1 then
        .error (.valueError ("num_levels must have the value" ++ "of at least 0"))
      else .ok ()
  | .nonInt typeName =>
      .error (.typeError
        ("num_levels must be an \x27int\x27. Found" ++ "\x27" ++ typeName ++
          "\x27 instead."))

/-- The value `range(num_levels)` iterates over once `_check_parameters` has
passed: at that point `num_levels` is an `int >= 0`, so `Int.toNat` is exact;
the `nonInt` branch is never reached past the check. -/
def levelsNat : PyNumLevels → ℕ
  | .int n => n.toNat
  | .nonInt _ => 0

/-- Embedding of the numpy3D → numpyflat conversion used by `_transform`:
each instance's variables × timepoints block is flattened into one row. -/
def numpyflat (X : List (List (List α))) : List (List α) :=
  X.map List.flatten

/-- Embedding of `transformedData.reshape((shape[0], shape[1], 1))`: entry
`[i][j]` of the 2d array becomes entry `[i][j][0]` of the 3d array. -/
def reshape_to_3d (t : List (List α)) : List (List (List α)) :=
  t.map (fun row => row.map (fun v => [v]))

/-- Embedding of `DWTTransformer._transform`: validate the parameters first
(any failure is surfaced before the panel is converted or processed), then
flatten the panel, extract the wavelet coefficients per instance, and
reshape the resulting 2d array to 3d with a trailing axis of length 1. -/
def transform (s : α) (num_levels : PyNumLevels) (X : List (List (List α))) :
    Except ConfigurationError (List (List (List α))) :=
  (check_parameters num_levels).map (fun _ =>
    reshape_to_3d (extract_wavelet_coefficients s (levelsNat num_levels)
      (numpyflat X)))

/-- The `current` series at the start of loop iteration `k` of
`_extract_wavelet_coefficients` (equivalently, after `k` applications of
`current = self._get_approx_coefficients(current)` starting from `x`). -/
def current_at (s : α) (x : List α) (k : ℕ) : List α :=
  (get_approx_coefficients s)^[k] x

/-- Shape the spec asserts for the transformer output: one output instance per
input instance and exactly one variable per output instance (the coefficient
vector then lives on the third axis).  Stated from the spec's words so it can
be compared with what `transform` actually produces. -/
def spec_output_shape (X Xt : List (List (List α))) : Prop :=
  Xt.length = X.length ∧ ∀ inst ∈ Xt, inst.length = 1

end DWT

namespace Broadcast

variable {α : Type} {β : Type}

/-- Modelled from the spec: the panel representation tags exercised by the
vectorization test (the registry of convertible representations is not under
`src/`; only its callers are). -/
inductive PanelMtype where
  | pd_multiindex
  | nested_univ
  | numpy3D
deriving DecidableEq

/-- Modelled from the spec: the Metadata Descriptor records a panel's instance
count and its equal-length flag. -/
structure MetadataDescriptor where
  n_instances : ℕ
  is_equal_length : Bool
deriving DecidableEq

/-- Modelled from the spec: the equal-length flag is computed by checking that
every per-instance series has the same length (every panel here is a list of
single-variable instances, one series per instance). -/
def equal_length_flag (p : List (List α)) : Bool :=
  p.all (fun r => r.length == p.headI.length)

/-- Modelled from the spec: the Metadata Descriptor produced for a panel by
the type/format validator. -/
def metadata_of (p : List (List α)) : MetadataDescriptor :=
  ⟨p.length, equal_length_flag p⟩

/-- Modelled from the spec: `check_is_mtype` validates a panel value against a
representation tag and returns validity plus the Metadata Descriptor; ragged
(unequal-length) panels cannot be represented in the dense 3D form and are
rejected there, while the other tags accept any collection of series. -/
def check_is_mtype (tag : PanelMtype) (p : List (List α)) :
    Bool × MetadataDescriptor :=
  (match tag with
    | .numpy3D => equal_length_flag p
    | _ => true,
   metadata_of p)

/-- Modelled from the spec: the representation converter between tags must be
format-preserving (a round-trip reproduces the original values), so on the
abstract panel value a conversion between tags is the identity. -/
def convert (_from_type _to_type : PanelMtype) (p : List (List α)) :
    List (List α) := p

/-- Modelled from the spec: `broadcast_apply` fans a single-series operation
out over every instance of a panel, invoking it once per instance in order,
and collects the per-instance results into a panel-shaped container. -/
def broadcast_apply (op : List α → List β) (panel : List (List α)) :
    List (List β) :=
  panel.map op

end Broadcast

namespace DWT

variable {α : Type} [Field α]

lemma length_get_approx_coefficients (s : α) (arr : List α) :
    (get_approx_coefficients s arr).length =
      if arr.length = 1 then 1 else arr.length / 2 := by
  unfold get_approx_coefficients
  split <;> simp

lemma length_get_wavelet_coefficients (s : α) (arr : List α) :
    (get_wavelet_coefficients s arr).length =
      if arr.length = 1 then 1 else arr.length / 2 := by
  unfold get_wavelet_coefficients
  split <;> simp

lemma get_approx_coefficients_singleton (s : α) (v : α) :
    get_approx_coefficients s [v] = [v] := rfl

lemma get_wavelet_coefficients_singleton (s : α) (v : α) :
    get_wavelet_coefficients s [v] = [v] := rfl

lemma getD_get_approx_coefficients (s : α) (arr : List α)
    (h1 : arr.length ≠ 1) (i : ℕ) (hi : i < arr.length / 2) :
    (get_approx_coefficients s arr).getD i 0 =
      (arr.getD (2 * i) 0 + arr.getD (2 * i + 1) 0) / s := by
  unfold get_approx_coefficients
  rw [if_neg h1, List.getD_eq_getElem?_getD, List.getElem?_map,
    List.getElem?_range hi]
  rfl

lemma getD_get_wavelet_coefficients (s : α) (arr : List α)
    (h1 : arr.length ≠ 1) (i : ℕ) (hi : i < arr.length / 2) :
    (get_wavelet_coefficients s arr).getD i 0 =
      (arr.getD (2 * i) 0 - arr.getD (2 * i + 1) 0) / s := by
  unfold get_wavelet_coefficients
  rw [if_neg h1, List.getD_eq_getElem?_getD, List.getElem?_map,
    List.getElem?_range hi]
  rfl

lemma getD_dropLast {β : Type} (l : List β) (i : ℕ)
    (h : i < l.length - 1) (d : β) : l.dropLast.getD i d = l.getD i d := by
  have h1 : i < l.dropLast.length := by
    rw [List.length_dropLast]; exact h
  have h2 : i < l.length := by omega
  rw [List.getD_eq_getElem?_getD, List.getD_eq_getElem?_getD,
    List.getElem?_eq_getElem h1, List.getElem?_eq_getElem h2,
    List.getElem_dropLast]

lemma extract_loop_singleton (s : α) (v : α) :
    ∀ (L : ℕ) (c : List α),
      extract_loop s L c [v] = (c ++ List.replicate L v, [v]) := by
  intro L
  induction L with
  | zero => intro c; simp [extract_loop]
  | succ n ih =>
      intro c
      rw [extract_loop, get_wavelet_coefficients_singleton,
        get_approx_coefficients_singleton, ih]
      simp [List.replicate_succ]

end DWT

namespace DWT

variable {α : Type} [Field α]

lemma extract_loop_eq (s : α) :
    ∀ (L : ℕ) (c cur : List α),
      extract_loop s L c cur =
        (c ++ ((List.range L).map (fun k =>
            (get_wavelet_coefficients s (current_at s cur k)).reverse)).flatten,
         current_at s cur L) := by
  intro L
  induction L with
  | zero => intro c cur; simp [extract_loop, current_at]
  | succ n ih =>
      intro c cur
      rw [extract_loop, ih]
      simp only [current_at, List.range_succ_eq_map, List.map_cons,
        List.map_map, List.flatten_cons, Function.iterate_zero_apply,
        Function.comp_def, Function.iterate_succ_apply, List.append_assoc]

lemma extract_one_eq (s : α) (L : ℕ) (x : List α) (hL : L ≠ 0) :
    extract_one s L x =
      current_at s x L ++
        (((List.range L).map (fun k =>
          get_wavelet_coefficients s (current_at s x k))).reverse).flatten := by
  rw [extract_one, if_neg hL, extract_loop_eq]
  simp only [List.nil_append, List.reverse_append, List.reverse_reverse]
  rw [List.reverse_flatten]
  simp [List.map_map, Function.comp_def]

lemma extract_loop_length_invariant (s : α) (m : ℕ) (hm : 0 < m) :
    ∀ (L : ℕ) (c cur : List α), cur.length = m * 2 ^ L →
      (extract_loop s L c cur).1.length + (extract_loop s L c cur).2.length =
        c.length + cur.length ∧
      (extract_loop s L c cur).2.length = m := by
  intro L
  induction L with
  | zero =>
      intro c cur h
      rw [pow_zero, Nat.mul_one] at h
      simp [extract_loop, h]
  | succ n ih =>
      intro c cur h
      have h2p : 2 ≤ 2 ^ (n + 1) := by
        have h1 : 1 ≤ 2 ^ n := Nat.one_le_two_pow
        rw [pow_succ]
        omega
      have hcur2 : 2 ≤ cur.length := by
        calc 2 = 1 * 2 := by omega
        _ ≤ m * 2 ^ (n + 1) := Nat.mul_le_mul hm h2p
        _ = cur.length := h.symm
      have hne1 : cur.length ≠ 1 := by omega
      have hhalf : cur.length / 2 = m * 2 ^ n := by
        rw [h, pow_succ, ← Nat.mul_assoc]
        exact Nat.mul_div_cancel _ (by omega)
      have happrox : (get_approx_coefficients s cur).length = m * 2 ^ n := by
        rw [length_get_approx_coefficients, if_neg hne1, hhalf]
      have hwav : (get_wavelet_coefficients s cur).length = m * 2 ^ n := by
        rw [length_get_wavelet_coefficients, if_neg hne1, hhalf]
      obtain ⟨ih1, ih2⟩ :=
        ih (c ++ (get_wavelet_coefficients s cur).reverse)
          (get_approx_coefficients s cur) happrox
      rw [extract_loop]
      refine ⟨?_, ih2⟩
      rw [ih1]
      simp only [List.length_append, List.length_reverse, hwav, happrox]
      have hcur : cur.length = m * 2 ^ n + m * 2 ^ n := by
        rw [h, pow_succ]; ring
      omega

end DWT

/-- C4: with `num_levels = 0` the transformer is the identity on the data —
every instance's output coefficient vector equals its input series, both at
the per-instance level (`_extract_wavelet_coefficients` lines 92–94) and at
`_transform` level, where only the shape-preserving reshape is applied on top
of the unchanged values. -/
theorem DWT.zero_levels_identity (s : ℝ) (x : List ℝ) (data : List (List ℝ))
    (X : List (List (List ℝ))) :
    DWT.extract_one s 0 x = x ∧
    DWT.extract_wavelet_coefficients s 0 data = data ∧
    DWT.transform s (.int 0) X = .ok (DWT.reshape_to_3d (DWT.numpyflat X)) := by
  have hmap : ∀ d : List (List ℝ), DWT.extract_wavelet_coefficients s 0 d = d := by
    intro d
    have h : d.map (DWT.extract_one s 0) = d.map id :=
      List.map_congr_left (fun a _ => rfl)
    rw [DWT.extract_wavelet_coefficients, h, List.map_id]
  refine ⟨rfl, hmap data, ?_⟩
  norm_num [DWT.transform, DWT.check_parameters, DWT.levelsNat, Except.map,
    hmap]

/-- C10: a length-1 series `[v]` is emitted unchanged as both detail and
approximation at every level, so with `num_levels = L ≥ 1` the per-instance
coefficient vector is `v` repeated `L + 1` times: the output grows with `L`
instead of staying at length 1. -/
theorem DWT.singleton_series_growth (s : ℝ) (v : ℝ) (L : ℕ) (hL : 1 ≤ L) :
    DWT.extract_one s L [v] = List.replicate (L + 1) v ∧
    (DWT.extract_one s L [v]).length = L + 1 ∧
    ∀ c ∈ DWT.extract_one s L [v], c = v := by
  have hL0 : L ≠ 0 := by omega
  have h1 : DWT.extract_one s L [v] = List.replicate (L + 1) v := by
    rw [DWT.extract_one, if_neg hL0, DWT.extract_loop_singleton]
    rw [List.nil_append, List.reverse_singleton, ← List.replicate_succ',
      List.reverse_replicate]
  refine ⟨h1, ?_, ?_⟩
  · rw [h1]; simp
  · intro c hc
    rw [h1] at hc
    exact List.eq_of_mem_replicate hc

/-- Witness for C10 at `s = sqrt 2`, `v = 5`, `L = 2`. -/
theorem DWT.singleton_series_growth_witness :
    1 ≤ 2 ∧
      (DWT.extract_one (Real.sqrt 2) 2 [(5:ℝ)] = List.replicate (2 + 1) (5:ℝ) ∧
       (DWT.extract_one (Real.sqrt 2) 2 [(5:ℝ)]).length = 2 + 1 ∧
       ∀ c ∈ DWT.extract_one (Real.sqrt 2) 2 [(5:ℝ)], c = 5) :=
  ⟨by norm_num, DWT.singleton_series_growth (Real.sqrt 2) 5 2 (by norm_num)⟩

/-- C9: when the series length is `m * 2 ^ L` with `m ≥ 1` and
`num_levels = L ≥ 1`, every level halves the current approximation exactly,
so the detail lengths `n/2, …, n/2^L` plus the final approximation length
`n/2^L` sum to `n`: the per-instance coefficient vector has the length of the
input series. -/
theorem DWT.length_preserving_pow2 (s : ℝ) (L m : ℕ) (x : List ℝ)
    (hL : 1 ≤ L) (hm : 1 ≤ m) (hx : x.length = m * 2 ^ L) :
    (DWT.extract_one s L x).length = x.length := by
  have hL0 : L ≠ 0 := by omega
  obtain ⟨h1, _⟩ := DWT.extract_loop_length_invariant s m (by omega) L [] x hx
  rw [DWT.extract_one, if_neg hL0]
  simp only [List.length_reverse, List.length_append, List.length_nil] at h1 ⊢
  omega

/-- Witness for C9 at `s = sqrt 2`, `L = 1`, `m = 1`, `x = [1, 2]`. -/
theorem DWT.length_preserving_pow2_witness :
    1 ≤ 1 ∧ 1 ≤ 1 ∧ ([(1:ℝ), 2]).length = 1 * 2 ^ 1 ∧
      (DWT.extract_one (Real.sqrt 2) 1 [(1:ℝ), 2]).length =
        ([(1:ℝ), 2]).length :=
  ⟨le_refl 1, le_refl 1, by norm_num,
    DWT.length_preserving_pow2 (Real.sqrt 2) 1 1 [(1:ℝ), 2] (le_refl 1)
      (le_refl 1) (by norm_num)⟩

/-- C5: parameter validation happens before any computation on the panel: a
negative integer `num_levels` fails with the out-of-range variant
(`ValueError`), a non-integer fails with the type-mismatch variant
(`TypeError`) — in both cases the same error for every panel `X`, showing the
panel is never converted or processed — and `num_levels = 3` on a 10-instance
panel succeeds. -/
theorem DWT.parameter_validation (s : ℝ) (tn : String)
    (X : List (List (List ℝ))) :
    DWT.transform s (.int (-1)) X =
      .error (.valueError ("num_levels must have the value" ++
        "of at least 0")) ∧
    DWT.transform s (.nonInt tn) X =
      .error (.typeError
        ("num_levels must be an \x27int\x27. Found" ++ "\x27" ++ tn ++
          "\x27 instead.")) ∧
    (X.length = 10 → ∃ Xt, DWT.transform s (.int 3) X = .ok Xt) := by
  refine ⟨rfl, rfl, fun _ => ?_⟩
  exact ⟨_, rfl⟩

/-- Witness for C5 at `tn = "str"` and a concrete 10-instance panel; the
instance-count hypothesis of the success conjunct is discharged there. -/
theorem DWT.parameter_validation_witness :
    (List.replicate 10 [[(1:ℝ)]]).length = 10 ∧
    DWT.transform (Real.sqrt 2) (.int (-1)) (List.replicate 10 [[(1:ℝ)]]) =
      .error (.valueError ("num_levels must have the value" ++
        "of at least 0")) ∧
    DWT.transform (Real.sqrt 2) (.nonInt "str")
        (List.replicate 10 [[(1:ℝ)]]) =
      .error (.typeError
        ("num_levels must be an \x27int\x27. Found" ++ "\x27" ++ "str" ++
          "\x27 instead.")) ∧
    ∃ Xt, DWT.transform (Real.sqrt 2) (.int 3)
        (List.replicate 10 [[(1:ℝ)]]) = .ok Xt :=
  ⟨by norm_num,
   (DWT.parameter_validation (Real.sqrt 2) "str"
     (List.replicate 10 [[(1:ℝ)]])).1,
   (DWT.parameter_validation (Real.sqrt 2) "str"
     (List.replicate 10 [[(1:ℝ)]])).2.1,
   (DWT.parameter_validation (Real.sqrt 2) "str"
     (List.replicate 10 [[(1:ℝ)]])).2.2 (by norm_num)⟩

namespace DWT

variable {α : Type} [Field α]

lemma get_approx_coefficients_dropLast (s : α) (arr : List α)
    (h2 : 2 ≤ arr.length) (hodd : arr.length % 2 = 1) :
    get_approx_coefficients s arr =
      get_approx_coefficients s arr.dropLast := by
  have hd : arr.dropLast.length = arr.length - 1 := List.length_dropLast arr
  have hn1 : arr.length ≠ 1 := by omega
  have hdn1 : arr.dropLast.length ≠ 1 := by omega
  have hrange : arr.length / 2 = arr.dropLast.length / 2 := by omega
  unfold get_approx_coefficients
  rw [if_neg hn1, if_neg hdn1, ← hrange]
  refine List.map_congr_left ?_
  intro x hx
  rw [List.mem_range] at hx
  rw [getD_dropLast arr (2 * x) (by omega) 0,
    getD_dropLast arr (2 * x + 1) (by omega) 0]

lemma get_wavelet_coefficients_dropLast (s : α) (arr : List α)
    (h2 : 2 ≤ arr.length) (hodd : arr.length % 2 = 1) :
    get_wavelet_coefficients s arr =
      get_wavelet_coefficients s arr.dropLast := by
  have hd : arr.dropLast.length = arr.length - 1 := List.length_dropLast arr
  have hn1 : arr.length ≠ 1 := by omega
  have hdn1 : arr.dropLast.length ≠ 1 := by omega
  have hrange : arr.length / 2 = arr.dropLast.length / 2 := by omega
  unfold get_wavelet_coefficients
  rw [if_neg hn1, if_neg hdn1, ← hrange]
  refine List.map_congr_left ?_
  intro x hx
  rw [List.mem_range] at hx
  rw [getD_dropLast arr (2 * x) (by omega) 0,
    getD_dropLast arr (2 * x + 1) (by omega) 0]

end DWT

/-- C2: one decomposition level on a series of length `n ≥ 2` produces
approximation and detail sequences of length `n / 2` with
`approx[i] = (arr[2i] + arr[2i+1]) / sqrt 2` and
`detail[i] = (arr[2i] - arr[2i+1]) / sqrt 2`; for odd `n > 1` the final
unpaired element is silently dropped (removing it changes neither output);
and for `n = 1` both outputs are the single-element sequence `[arr[0]]`. -/
theorem DWT.one_level_coefficients (arr : List ℝ) :
    (2 ≤ arr.length →
      (DWT.get_approx_coefficients (Real.sqrt 2) arr).length =
        arr.length / 2 ∧
      (DWT.get_wavelet_coefficients (Real.sqrt 2) arr).length =
        arr.length / 2 ∧
      (∀ i < arr.length / 2,
        (DWT.get_approx_coefficients (Real.sqrt 2) arr).getD i 0 =
          (arr.getD (2 * i) 0 + arr.getD (2 * i + 1) 0) / Real.sqrt 2 ∧
        (DWT.get_wavelet_coefficients (Real.sqrt 2) arr).getD i 0 =
          (arr.getD (2 * i) 0 - arr.getD (2 * i + 1) 0) / Real.sqrt 2)) ∧
    (arr.length = 1 →
      DWT.get_approx_coefficients (Real.sqrt 2) arr = [arr.getD 0 0] ∧
      DWT.get_wavelet_coefficients (Real.sqrt 2) arr = [arr.getD 0 0]) ∧
    (2 ≤ arr.length → arr.length % 2 = 1 →
      DWT.get_approx_coefficients (Real.sqrt 2) arr =
        DWT.get_approx_coefficients (Real.sqrt 2) arr.dropLast ∧
      DWT.get_wavelet_coefficients (Real.sqrt 2) arr =
        DWT.get_wavelet_coefficients (Real.sqrt 2) arr.dropLast) := by
  refine ⟨fun h2 => ?_, fun h1 => ?_, fun h2 hodd =>
    ⟨DWT.get_approx_coefficients_dropLast _ _ h2 hodd,
     DWT.get_wavelet_coefficients_dropLast _ _ h2 hodd⟩⟩
  · have hn1 : arr.length ≠ 1 := by omega
    refine ⟨?_, ?_, fun i hi =>
      ⟨DWT.getD_get_approx_coefficients _ _ hn1 i hi,
       DWT.getD_get_wavelet_coefficients _ _ hn1 i hi⟩⟩
    · rw [DWT.length_get_approx_coefficients, if_neg hn1]
    · rw [DWT.length_get_wavelet_coefficients, if_neg hn1]
  · exact ⟨by rw [DWT.get_approx_coefficients, if_pos h1],
      by rw [DWT.get_wavelet_coefficients, if_pos h1]⟩

/-- Witness for C2: the even branch and the odd-drop branch at
`arr = [1, 2, 3]`, and the length-1 branch at `arr = [7]`. -/
theorem DWT.one_level_coefficients_witness :
    2 ≤ ([(1:ℝ), 2, 3]).length ∧ ([(1:ℝ), 2, 3]).length % 2 = 1 ∧
    ([(7:ℝ)]).length = 1 ∧
    ((DWT.get_approx_coefficients (Real.sqrt 2) [(1:ℝ), 2, 3]).length =
        ([(1:ℝ), 2, 3]).length / 2 ∧
      (DWT.get_wavelet_coefficients (Real.sqrt 2) [(1:ℝ), 2, 3]).length =
        ([(1:ℝ), 2, 3]).length / 2 ∧
      (∀ i < ([(1:ℝ), 2, 3]).length / 2,
        (DWT.get_approx_coefficients (Real.sqrt 2) [(1:ℝ), 2, 3]).getD i 0 =
          (([(1:ℝ), 2, 3]).getD (2 * i) 0 +
            ([(1:ℝ), 2, 3]).getD (2 * i + 1) 0) / Real.sqrt 2 ∧
        (DWT.get_wavelet_coefficients (Real.sqrt 2) [(1:ℝ), 2, 3]).getD i 0 =
          (([(1:ℝ), 2, 3]).getD (2 * i) 0 -
            ([(1:ℝ), 2, 3]).getD (2 * i + 1) 0) / Real.sqrt 2)) ∧
    (DWT.get_approx_coefficients (Real.sqrt 2) [(1:ℝ), 2, 3] =
        DWT.get_approx_coefficients (Real.sqrt 2) ([(1:ℝ), 2, 3]).dropLast ∧
      DWT.get_wavelet_coefficients (Real.sqrt 2) [(1:ℝ), 2, 3] =
        DWT.get_wavelet_coefficients (Real.sqrt 2) ([(1:ℝ), 2, 3]).dropLast) ∧
    (DWT.get_approx_coefficients (Real.sqrt 2) [(7:ℝ)] =
        [([(7:ℝ)]).getD 0 0] ∧
      DWT.get_wavelet_coefficients (Real.sqrt 2) [(7:ℝ)] =
        [([(7:ℝ)]).getD 0 0]) :=
  ⟨by norm_num, by norm_num, by norm_num,
   (DWT.one_level_coefficients [(1:ℝ), 2, 3]).1 (by norm_num),
   (DWT.one_level_coefficients [(1:ℝ), 2, 3]).2.2 (by norm_num) (by norm_num),
   (DWT.one_level_coefficients [(7:ℝ)]).2.1 (by norm_num)⟩

/-- C3: at every level of the multi-level decomposition (the level-`k` input
being `current_at`, the `k`-fold approximation of the original series), the
approximation and detail coefficients linearly recover the original pair:
`arr[2i] = (approx[i] + detail[i]) * sqrt 2 / 2` and
`arr[2i+1] = (approx[i] - detail[i]) * sqrt 2 / 2`. -/
theorem DWT.pair_recovery (x : List ℝ) (k i : ℕ)
    (h2 : 2 ≤ (DWT.current_at (Real.sqrt 2) x k).length)
    (hi : i < (DWT.current_at (Real.sqrt 2) x k).length / 2) :
    (DWT.current_at (Real.sqrt 2) x k).getD (2 * i) 0 =
      ((DWT.get_approx_coefficients (Real.sqrt 2)
          (DWT.current_at (Real.sqrt 2) x k)).getD i 0 +
        (DWT.get_wavelet_coefficients (Real.sqrt 2)
          (DWT.current_at (Real.sqrt 2) x k)).getD i 0) * Real.sqrt 2 / 2 ∧
    (DWT.current_at (Real.sqrt 2) x k).getD (2 * i + 1) 0 =
      ((DWT.get_approx_coefficients (Real.sqrt 2)
          (DWT.current_at (Real.sqrt 2) x k)).getD i 0 -
        (DWT.get_wavelet_coefficients (Real.sqrt 2)
          (DWT.current_at (Real.sqrt 2) x k)).getD i 0) * Real.sqrt 2 / 2 := by
  set arr := DWT.current_at (Real.sqrt 2) x k with harr
  have hn1 : arr.length ≠ 1 := by omega
  rw [DWT.getD_get_approx_coefficients _ _ hn1 i hi,
    DWT.getD_get_wavelet_coefficients _ _ hn1 i hi]
  have hs : Real.sqrt 2 ≠ 0 := by positivity
  constructor <;> field_simp

/-- Witness for C3 at `x = [1, 2, 3, 4]`, level `k = 0`, pair `i = 1`. -/
theorem DWT.pair_recovery_witness :
    2 ≤ (DWT.current_at (Real.sqrt 2) [(1:ℝ), 2, 3, 4] 0).length ∧
    1 < (DWT.current_at (Real.sqrt 2) [(1:ℝ), 2, 3, 4] 0).length / 2 ∧
    ((DWT.current_at (Real.sqrt 2) [(1:ℝ), 2, 3, 4] 0).getD (2 * 1) 0 =
      ((DWT.get_approx_coefficients (Real.sqrt 2)
          (DWT.current_at (Real.sqrt 2) [(1:ℝ), 2, 3, 4] 0)).getD 1 0 +
        (DWT.get_wavelet_coefficients (Real.sqrt 2)
          (DWT.current_at (Real.sqrt 2) [(1:ℝ), 2, 3, 4] 0)).getD 1 0) *
        Real.sqrt 2 / 2 ∧
    (DWT.current_at (Real.sqrt 2) [(1:ℝ), 2, 3, 4] 0).getD (2 * 1 + 1) 0 =
      ((DWT.get_approx_coefficients (Real.sqrt 2)
          (DWT.current_at (Real.sqrt 2) [(1:ℝ), 2, 3, 4] 0)).getD 1 0 -
        (DWT.get_wavelet_coefficients (Real.sqrt 2)
          (DWT.current_at (Real.sqrt 2) [(1:ℝ), 2, 3, 4] 0)).getD 1 0) *
        Real.sqrt 2 / 2) :=
  ⟨by simp [DWT.current_at], by simp [DWT.current_at],
   DWT.pair_recovery [(1:ℝ), 2, 3, 4] 0 1 (by simp [DWT.current_at])
     (by simp [DWT.current_at])⟩

/-- C1 (code bug): on the series `[1, 3]` with `num_levels = 1` the extracted
coefficient vector is `[(1+3)/sqrt 2, (1-3)/sqrt 2]` — the approximation
coefficient first and the detail coefficient last — and in particular it is
not `[(1-3)/sqrt 2, (1+3)/sqrt 2]`, the detail-first order that the claim
(and the method's own docstring) prescribe.  The double reversal in
`_extract_wavelet_coefficients` yields
`approx_L ++ detail_L ++ … ++ detail_1`, not `detail_1 ++ … ++ approx_L`. -/
theorem DWT.order_at_failing_input :
    DWT.extract_one (Real.sqrt 2) 1 [(1:ℝ), 3] =
      [((1:ℝ) + 3) / Real.sqrt 2, ((1:ℝ) - 3) / Real.sqrt 2] ∧
    DWT.extract_one (Real.sqrt 2) 1 [(1:ℝ), 3] ≠
      [((1:ℝ) - 3) / Real.sqrt 2, ((1:ℝ) + 3) / Real.sqrt 2] := by
  have heq : DWT.extract_one (Real.sqrt 2) 1 [(1:ℝ), 3] =
      [((1:ℝ) + 3) / Real.sqrt 2, ((1:ℝ) - 3) / Real.sqrt 2] := rfl
  refine ⟨heq, ?_⟩
  rw [heq]
  have hs : Real.sqrt 2 ≠ 0 := by positivity
  intro h
  simp only [List.cons.injEq] at h
  obtain ⟨h1, -⟩ := h
  rw [div_left_inj' hs] at h1
  norm_num at h1

/-- C7 is refuted at the one-instance panel `[[[1, 2]]]` with
`num_levels = 1`: the transformer returns a container of shape
1 instance × 2 × 1 — the coefficient vector lies on the second axis, each
entry wrapped in a length-1 innermost list — so the output instance does not
have exactly one variable as the claim asserts. -/
theorem DWT.output_shape_counterexample :
    DWT.transform (Real.sqrt 2) (.int 1) [[[(1:ℝ), 2]]] =
      .ok [[[((1:ℝ) + 2) / Real.sqrt 2], [((1:ℝ) - 2) / Real.sqrt 2]]] ∧
    ¬ DWT.spec_output_shape [[[(1:ℝ), 2]]]
        [[[((1:ℝ) + 2) / Real.sqrt 2], [((1:ℝ) - 2) / Real.sqrt 2]]] := by
  refine ⟨rfl, ?_⟩
  intro hsh
  obtain ⟨-, h⟩ := hsh
  have h2 := h [[((1:ℝ) + 2) / Real.sqrt 2], [((1:ℝ) - 2) / Real.sqrt 2]]
    (by simp)
  norm_num at h2

/-- C7 as amended: for every panel accepted by the parameter check, the
output is the per-instance coefficient vectors reshaped to
instances × coefficient-length × 1 — instance count preserved, the second
axis carrying each instance's coefficient vector, and every innermost list
of length one (the code reshapes to `(n_instances, n_coefficients, 1)`, not
to `(n_instances, 1, n_coefficients)`). -/
theorem DWT.output_shape_actual (s : ℝ) (L : ℕ) (X Xt : List (List (List ℝ)))
    (h : DWT.transform s (.int (L : ℤ)) X = .ok Xt) :
    Xt = DWT.reshape_to_3d
        (DWT.extract_wavelet_coefficients s L (DWT.numpyflat X)) ∧
    Xt.length = X.length ∧
    ∀ inst ∈ Xt, ∀ cell ∈ inst, cell.length = 1 := by
  have hneg : ¬ ((L : ℤ) ≤ -1) := by omega
  have hok : DWT.check_parameters (.int (L : ℤ)) = .ok () := by
    simp [DWT.check_parameters, hneg]
  rw [DWT.transform, hok] at h
  simp only [Except.map, DWT.levelsNat, Int.toNat_natCast] at h
  have hXt : Xt = DWT.reshape_to_3d
      (DWT.extract_wavelet_coefficients s L (DWT.numpyflat X)) :=
    (Except.ok.injEq _ _ |>.mp h).symm
  refine ⟨hXt, ?_, ?_⟩
  · rw [hXt]
    simp [DWT.reshape_to_3d, DWT.extract_wavelet_coefficients, DWT.numpyflat]
  · intro inst hinst cell hcell
    rw [hXt] at hinst
    simp only [DWT.reshape_to_3d, List.mem_map] at hinst
    obtain ⟨row, -, hrow⟩ := hinst
    rw [← hrow] at hcell
    simp only [List.mem_map] at hcell
    obtain ⟨v, -, hv⟩ := hcell
    rw [← hv]
    rfl

/-- Witness for the amended C7 at `L = 0` and the panel `[[[1, 2]]]`. -/
theorem DWT.output_shape_actual_witness :
    DWT.transform (Real.sqrt 2) (.int ((0:ℕ) : ℤ)) [[[(1:ℝ), 2]]] =
      .ok [[[(1:ℝ)], [(2:ℝ)]]] ∧
    ([[[(1:ℝ)], [(2:ℝ)]]] = DWT.reshape_to_3d
        (DWT.extract_wavelet_coefficients (Real.sqrt 2) 0
          (DWT.numpyflat [[[(1:ℝ), 2]]])) ∧
      ([[[(1:ℝ)], [(2:ℝ)]]] : List (List (List ℝ))).length =
        ([[[(1:ℝ), 2]]] : List (List (List ℝ))).length ∧
      ∀ inst ∈ ([[[(1:ℝ)], [(2:ℝ)]]] : List (List (List ℝ))),
        ∀ cell ∈ inst, cell.length = 1) :=
  ⟨rfl, DWT.output_shape_actual (Real.sqrt 2) 0 [[[(1:ℝ), 2]]]
    [[[(1:ℝ)], [(2:ℝ)]]] rfl⟩

namespace Broadcast

lemma equal_length_flag_of_const {β : Type} (p : List (List β)) (n : ℕ)
    (h : ∀ r ∈ p, r.length = n) : equal_length_flag p = true := by
  cases p with
  | nil => rfl
  | cons a t =>
      simp only [equal_length_flag, List.all_eq_true, beq_iff_eq, List.headI]
      intro r hr
      rw [h r hr, h a (List.mem_cons_self a t)]

end Broadcast

/-- C6: for any single-series estimator whose `predict(horizon)` returns a
forecast of the horizon's length, and any 10-instance panel converted from
the nested representation to any of the three representation tags,
broadcasting fit/predict over the panel with horizon `[1, 2, 3]` yields a
panel-shaped result that is valid under that tag, with `n_instances = 10`,
`is_equal_length = true`, and every instance's forecast of length 3. -/
theorem Broadcast.vectorization_series_to_panel
    (predict : List ℝ → List ℕ → List ℝ)
    (hlen : ∀ y fh, (predict y fh).length = fh.length)
    (tag : Broadcast.PanelMtype) (y : List (List ℝ)) (hy : y.length = 10) :
    (Broadcast.check_is_mtype tag
        (Broadcast.broadcast_apply (fun series => predict series [1, 2, 3])
          (Broadcast.convert .nested_univ tag y))).1 = true ∧
    (Broadcast.check_is_mtype tag
        (Broadcast.broadcast_apply (fun series => predict series [1, 2, 3])
          (Broadcast.convert .nested_univ tag y))).2.n_instances = 10 ∧
    (Broadcast.check_is_mtype tag
        (Broadcast.broadcast_apply (fun series => predict series [1, 2, 3])
          (Broadcast.convert .nested_univ tag y))).2.is_equal_length = true ∧
    ∀ r ∈ Broadcast.broadcast_apply (fun series => predict series [1, 2, 3])
        (Broadcast.convert .nested_univ tag y), r.length = 3 := by
  have hmem : ∀ r ∈ Broadcast.broadcast_apply
      (fun series => predict series [1, 2, 3])
      (Broadcast.convert .nested_univ tag y), r.length = 3 := by
    intro r hr
    simp only [Broadcast.broadcast_apply, Broadcast.convert,
      List.mem_map] at hr
    obtain ⟨a, -, ha⟩ := hr
    rw [← ha, hlen]
    rfl
  have hflag := Broadcast.equal_length_flag_of_const _ 3 hmem
  have hcount : (Broadcast.broadcast_apply
      (fun series => predict series [1, 2, 3])
      (Broadcast.convert .nested_univ tag y)).length = 10 := by
    simp [Broadcast.broadcast_apply, Broadcast.convert, hy]
  refine ⟨?_, ?_, ?_, hmem⟩
  · cases tag <;> simp [Broadcast.check_is_mtype, hflag]
  · simp [Broadcast.check_is_mtype, Broadcast.metadata_of, hcount]
  · simp [Broadcast.check_is_mtype, Broadcast.metadata_of, hflag]

/-- Witness for C6 with the estimator `predict series fh = fh` (cast to
reals), the 10-instance panel of empty series, and the dense 3D tag. -/
theorem Broadcast.vectorization_series_to_panel_witness :
    (∀ (y : List ℝ) (fh : List ℕ),
      ((fun (_ : List ℝ) (fh : List ℕ) => fh.map (fun (t : ℕ) => (t : ℝ))) y
        fh).length = fh.length) ∧
    (List.replicate 10 ([] : List ℝ)).length = 10 ∧
    ((Broadcast.check_is_mtype .numpy3D
        (Broadcast.broadcast_apply
          (fun series =>
            (fun (_ : List ℝ) (fh : List ℕ) => fh.map (fun (t : ℕ) => (t : ℝ)))
              series [1, 2, 3])
          (Broadcast.convert .nested_univ .numpy3D
            (List.replicate 10 ([] : List ℝ))))).1 = true ∧
      (Broadcast.check_is_mtype .numpy3D
        (Broadcast.broadcast_apply
          (fun series =>
            (fun (_ : List ℝ) (fh : List ℕ) => fh.map (fun (t : ℕ) => (t : ℝ)))
              series [1, 2, 3])
          (Broadcast.convert .nested_univ .numpy3D
            (List.replicate 10 ([] : List ℝ))))).2.n_instances = 10 ∧
      (Broadcast.check_is_mtype .numpy3D
        (Broadcast.broadcast_apply
          (fun series =>
            (fun (_ : List ℝ) (fh : List ℕ) => fh.map (fun (t : ℕ) => (t : ℝ)))
              series [1, 2, 3])
          (Broadcast.convert .nested_univ .numpy3D
            (List.replicate 10 ([] : List ℝ))))).2.is_equal_length = true ∧
      ∀ r ∈ Broadcast.broadcast_apply
          (fun series =>
            (fun (_ : List ℝ) (fh : List ℕ) => fh.map (fun (t : ℕ) => (t : ℝ)))
              series [1, 2, 3])
          (Broadcast.convert .nested_univ .numpy3D
            (List.replicate 10 ([] : List ℝ))), r.length = 3) :=
  ⟨fun _ fh => by simp, by simp,
   Broadcast.vectorization_series_to_panel
     (fun (_ : List ℝ) (fh : List ℕ) => fh.map (fun (t : ℕ) => (t : ℝ)))
     (fun _ fh => by simp) .numpy3D (List.replicate 10 ([] : List ℝ))
     (by simp)⟩
